import Mathlib

/-!
Verification model of the codeex-analytics backend (server.js).

Shallow embedding conventions:
* Timestamps are integer milliseconds since the Unix epoch (`Int`).
* The calendar-date string produced by `toISOString().split('T')[0]` is
  order-isomorphic to the day number since the epoch, so the `date` field
  is modelled as that day number (`Int`); string comparison on ISO dates
  is numeric comparison on day numbers.  The server clock is taken as UTC.
* MongoDB collections are lists; `findOne` is `List.find?` (first match),
  `save` on a fetched document replaces that first match in place,
  `find.sort(startTime:-1)` is a stable insertion sort by descending
  `startTime`, `limit(100)` is `List.take 100`.
* JavaScript `Math.floor(x / y)` on integers is `Int.fdiv`, `x % y` is
  `Int.tmod`, and `toFixed(1)` / `Math.round` are modelled as exact
  rational rounding to tenths / units with halves rounded toward plus
  infinity (`roundHalfUp`); binary floating point artifacts are out of
  scope.
* Fallible request handlers return `Except ApiError`.
-/

/-- Decimal digit character, as a JS number renders its digits. -/
def digitChar (d : Nat) : Char :=
  if d = 0 then '0' else if d = 1 then '1' else if d = 2 then '2'
  else if d = 3 then '3' else if d = 4 then '4' else if d = 5 then '5'
  else if d = 6 then '6' else if d = 7 then '7' else if d = 8 then '8' else '9'

/-- Digit accumulator for decimal rendering; `fuel` bounds the recursion
so the definition is structural (kernel-reducible). -/
def natToCharsAux : Nat → Nat → List Char → List Char
  | _, 0, acc => acc
  | n, fuel + 1, acc =>
    let acc2 := digitChar (n % 10) :: acc
    if n / 10 = 0 then acc2 else natToCharsAux (n / 10) fuel acc2

/-- Decimal rendering of a natural number, as JS renders an integral number. -/
def natToString (n : Nat) : String :=
  String.mk (natToCharsAux n (n + 1) [])

/-- Decimal rendering of an integer, as JS template interpolation renders it. -/
def intToString (n : Int) : String :=
  if n < 0 then "-" ++ natToString n.natAbs else natToString n.toNat

/-- formatDuration from server.js: hours/minutes when at least an hour,
minutes/seconds when at least a minute, else bare seconds. -/
def formatDuration (totalSeconds : Int) : String :=
  let hours := Int.fdiv totalSeconds 3600
  let minutes := Int.fdiv (Int.tmod totalSeconds 3600) 60
  let seconds := Int.tmod totalSeconds 60
  if 0 < hours then intToString hours ++ "h " ++ intToString minutes ++ "m"
  else if 0 < minutes then intToString minutes ++ "m " ++ intToString seconds ++ "s"
  else intToString seconds ++ "s"

theorem digitChar_isDigit (d : Nat) : (digitChar d).isDigit = true := by
  unfold digitChar
  repeat' split
  all_goals rfl

theorem natToCharsAux_digits (fuel : Nat) :
    ∀ n acc, (∀ c ∈ acc, c.isDigit = true) →
      ∀ c ∈ natToCharsAux n fuel acc, c.isDigit = true := by
  induction fuel with
  | zero => intro n acc h c hc; exact h c hc
  | succ f ih =>
    intro n acc h c hc
    unfold natToCharsAux at hc
    by_cases h10 : n / 10 = 0
    · simp only [h10, if_pos] at hc
      rcases List.mem_cons.mp hc with h1 | h2
      · subst h1; exact digitChar_isDigit _
      · exact h c h2
    · simp only [h10, if_neg, if_false] at hc
      refine ih (n / 10) (digitChar (n % 10) :: acc) ?_ c hc
      intro c2 hc2
      rcases List.mem_cons.mp hc2 with h1 | h2
      · subst h1; exact digitChar_isDigit _
      · exact h c2 h2

theorem natToString_digits (n : Nat) :
    ∀ c ∈ (natToString n).data, c.isDigit = true := by
  intro c hc
  exact natToCharsAux_digits (n + 1) n [] (by intro c2 hc2; cases hc2) c hc

/-- userSchema from server.js (fields exercised by the handlers). -/
structure User where
  id : String
  firstName : String
  lastName : String
  email : String
  password : String
  role : String
  department : String
  position : String
  employeeId : String
deriving Repr, DecidableEq

/-- timeRecordSchema from server.js.  `startTime`, `endTime` are epoch
milliseconds, `date` is the epoch day number of the calendar-date string. -/
structure TimeRecord where
  id : String
  userId : String
  userName : String
  userEmail : String
  project : String
  task : String
  startTime : Int
  endTime : Option Int
  duration : Option String
  durationSeconds : Option Int
  isRunning : Bool
  isPaused : Bool
  isManual : Bool
  date : Int
deriving Repr, DecidableEq

/-- The persistent state: the User and TimeRecord collections. -/
structure Store where
  users : List User
  records : List TimeRecord
deriving Repr, DecidableEq

/-- Error outcomes of the handlers: 400 timer-already-running, 404 not
found, and a thrown exception (500) such as reading a missing user. -/
inductive ApiError where
  | conflict
  | notFound
  | internal
deriving Repr, DecidableEq

/-- Epoch day number of a timestamp: the date part of toISOString. -/
def jsDay (ms : Int) : Int := Int.fdiv ms 86400000

/-- JS Date.getDay on a day number: 0 = Sunday .. 6 = Saturday
(day 0, 1970-01-01, was a Thursday). -/
def jsGetDay (day : Int) : Int := (day + 4) % 7

/-- startOfWeek.setDate(getDate() - getDay() + 1) at both stats and
listing endpoints, reduced to day numbers. -/
def weekStartDay (today : Int) : Int := today - jsGetDay today + 1

/-- Day-of-month (1-based) of an epoch day number on the proleptic
Gregorian calendar (civil-from-days), modelling the date part JS
arithmetic works on. -/
def dayOfMonth (z : Int) : Int :=
  let zz := z + 719468
  let era := Int.fdiv zz 146097
  let doe := zz - era * 146097
  let yoe := Int.fdiv (doe - Int.fdiv doe 1460 + Int.fdiv doe 36524 - Int.fdiv doe 146096) 365
  let doy := doe - (365 * yoe + Int.fdiv yoe 4 - Int.fdiv yoe 100)
  let mp := Int.fdiv (5 * doy + 2) 153
  doy - Int.fdiv (153 * mp + 2) 5 + 1

/-- startOfMonth.setDate(1) at the listing endpoints, on day numbers. -/
def monthStartDay (today : Int) : Int := today - dayOfMonth today + 1

/-- Replace the first element matched by `p` (findOne then save). -/
def replaceFirst (p : α → Bool) (f : α → α) : List α → List α
  | [] => []
  | x :: xs => if p x then f x :: xs else x :: replaceFirst p f xs

/-- Remove the first element matched by `p` (findOneAndDelete). -/
def eraseFirstP (p : α → Bool) : List α → List α
  | [] => []
  | x :: xs => if p x then xs else x :: eraseFirstP p xs

/-- POST /api/employee/timer/start.  Rejects when the caller already has a
record with isRunning = true, otherwise appends a fresh running record. -/
def startTimer (st : Store) (now : Int) (userId project task : String) :
    Except ApiError (Store × TimeRecord) :=
  match st.records.find? (fun r => r.userId == userId && r.isRunning) with
  | some _ => .error .conflict
  | none =>
    match st.users.find? (fun u => u.id == userId) with
    | none => .error .internal
    | some u =>
      let t : TimeRecord :=
        { id := "timer_" ++ intToString now
          userId := userId
          userName := u.firstName ++ " " ++ u.lastName
          userEmail := u.email
          project := project
          task := task
          startTime := now
          endTime := none
          duration := none
          durationSeconds := none
          isRunning := true
          isPaused := false
          isManual := false
          date := jsDay now }
      .ok ({ st with records := st.records ++ [t] }, t)

/-- POST /api/employee/timer/stop/:id.  Closes the first record matching
id and owner: computes the duration from now, sets endTime, duration and
durationSeconds, flips isRunning off.  isPaused is left untouched and no
clamping or running-state check is performed. -/
def stopTimer (st : Store) (now : Int) (recId userId : String) :
    Except ApiError (Store × TimeRecord) :=
  match st.records.find? (fun r => r.userId == userId && r.id == recId) with
  | none => .error .notFound
  | some timer =>
    let ds := Int.fdiv (now - timer.startTime) 1000
    let t := { timer with
                endTime := some now
                duration := some (formatDuration ds)
                durationSeconds := some ds
                isRunning := false }
    .ok ({ st with records :=
            replaceFirst (fun r => r.userId == userId && r.id == recId) (fun _ => t) st.records },
         t)

/-- POST /api/employee/timer/pause/:id.  Sets or clears isPaused on the
first record matching id and owner; any other action leaves it as is.
No check that the record is running. -/
def pauseTimer (st : Store) (recId userId action : String) :
    Except ApiError (Store × TimeRecord) :=
  match st.records.find? (fun r => r.userId == userId && r.id == recId) with
  | none => .error .notFound
  | some timer =>
    let t := if action == "pause" then { timer with isPaused := true }
             else if action == "resume" then { timer with isPaused := false }
             else timer
    .ok ({ st with records :=
            replaceFirst (fun r => r.userId == userId && r.id == recId) (fun _ => t) st.records },
         t)

/-- POST /api/employee/records/manual.  Appends a closed record with the
caller-supplied timestamps; the duration is computed but never validated. -/
def manualInsert (st : Store) (now : Int) (userId project task : String)
    (startT endT : Int) : Except ApiError (Store × TimeRecord) :=
  match st.users.find? (fun u => u.id == userId) with
  | none => .error .internal
  | some u =>
    let ds := Int.fdiv (endT - startT) 1000
    let t : TimeRecord :=
      { id := "manual_" ++ intToString now
        userId := userId
        userName := u.firstName ++ " " ++ u.lastName
        userEmail := u.email
        project := project
        task := task
        startTime := startT
        endTime := some endT
        duration := some (formatDuration ds)
        durationSeconds := some ds
        isRunning := false
        isPaused := false
        isManual := true
        date := jsDay startT }
    .ok ({ st with records := st.records ++ [t] }, t)

/-- DELETE /api/admin/employees/:id.  findOneAndDelete on the user, then
deleteMany on the records with this owner. -/
def deleteEmployee (st : Store) (targetId : String) : Store :=
  { users := eraseFirstP (fun u => u.id == targetId) st.users
    records := st.records.filter (fun r => !(r.userId == targetId)) }

/-- Insert into a list kept in descending startTime order (stable). -/
def insertDesc (r : TimeRecord) : List TimeRecord → List TimeRecord
  | [] => [r]
  | x :: xs =>
    if r.startTime > x.startTime then r :: x :: xs else x :: insertDesc r xs

/-- Model of .sort(startTime: -1): stable insertion sort, descending. -/
def sortByStartDesc : List TimeRecord → List TimeRecord
  | [] => []
  | x :: xs => insertDesc x (sortByStartDesc xs)

/-- Date-range narrowing shared by the listing endpoints: today is an
equality match, week and month are lower bounds, anything else (including
an absent parameter) matches all. -/
def dateRangeCond (dr : String) (today d : Int) : Bool :=
  if dr == "today" then d == today
  else if dr == "week" then decide (weekStartDay today ≤ d)
  else if dr == "month" then decide (monthStartDay today ≤ d)
  else true

/-- Project narrowing: applied only when the parameter is present, truthy
(non-empty) and not the sentinel "all". -/
def projCond (proj : Option String) (r : TimeRecord) : Bool :=
  match proj with
  | none => true
  | some p => if p == "" || p == "all" then true else r.project == p

/-- Employee-id narrowing of the admin listing, same truthiness rule. -/
def empCond (emp : Option String) (r : TimeRecord) : Bool :=
  match emp with
  | none => true
  | some e => if e == "" || e == "all" then true else r.userId == e

/-- GET /api/admin/records: non-running records under the optional
filters, newest first, capped at 100. -/
def adminRecords (st : Store) (now : Int) (dr : String)
    (emp proj : Option String) : List TimeRecord :=
  let today := jsDay now
  (sortByStartDesc (st.records.filter
    (fun r => !r.isRunning &&
      (dateRangeCond dr today r.date && (empCond emp r && projCond proj r))))).take 100

/-- GET /api/employee/records: the caller's non-running records under the
optional filters, newest first, uncapped. -/
def employeeRecords (st : Store) (now : Int) (me : String) (dr : String)
    (proj : Option String) : List TimeRecord :=
  let today := jsDay now
  sortByStartDesc (st.records.filter
    (fun r => r.userId == me &&
      (!r.isRunning && (dateRangeCond dr today r.date && projCond proj r))))

/-- durationSeconds summed with the JS fallback (r.durationSeconds or 0). -/
def sumDur : List TimeRecord → Int
  | [] => 0
  | r :: rs => r.durationSeconds.getD 0 + sumDur rs

/-- Insertion-ordered list of distinct values, as a JS Set accumulates. -/
def distinctVals {α : Type} [DecidableEq α] (l : List α) : List α :=
  l.foldl (fun acc d => if d ∈ acc then acc else acc ++ [d]) []

/-- new Set(xs).size. -/
def countDistinct {α : Type} [DecidableEq α] (l : List α) : Nat :=
  (distinctVals l).length

/-- Round the exact rational p / q (q positive) to the nearest integer,
halves toward plus infinity: the model of Math.round and, scaled by ten,
of toFixed(1). -/
def roundHalfUp (p q : Int) : Int := Int.fdiv (2 * p + q) (2 * q)

/-- calculateProductivityScore from server.js:
round(min(weeklyHours / 40 * 100, 100)), with weeklyHours = sum / 3600,
so the pre-rounding value is sum / 1440 saturated at 100. -/
def calculateProductivityScore (weekRecords : List TimeRecord) : Int :=
  let s := sumDur weekRecords
  if s ≤ 144000 then roundHalfUp s 1440 else 100

/-- GET /api/admin/dashboard/stats response; the .toFixed(1) hour fields
are carried as integer tenths. -/
structure AdminStats where
  totalHoursTodayTenths : Int
  weeklyTotalTenths : Int
  activeTimersNow : Nat
  daysThisWeek : Nat
  totalTeamMembers : Nat
  activeToday : Nat
  avgHoursPerDayTenths : Int
deriving Repr, DecidableEq

/-- GET /api/admin/dashboard/stats. -/
def adminStats (st : Store) (now : Int) : AdminStats :=
  let today := jsDay now
  let ws := weekStartDay today
  let todayRecords := st.records.filter (fun r => r.date == today && !r.isRunning)
  let weekRecords := st.records.filter (fun r => decide (ws ≤ r.date) && !r.isRunning)
  { totalHoursTodayTenths := roundHalfUp (10 * sumDur todayRecords) 3600
    weeklyTotalTenths := roundHalfUp (10 * sumDur weekRecords) 3600
    activeTimersNow := (st.records.filter (fun r => r.isRunning)).length
    daysThisWeek := countDistinct (weekRecords.map (fun r => r.date))
    totalTeamMembers := (st.users.filter (fun u => u.role == "employee")).length
    activeToday := countDistinct (todayRecords.map (fun r => r.userId))
    avgHoursPerDayTenths :=
      roundHalfUp (10 * sumDur weekRecords)
        (3600 * (max 1 (countDistinct (weekRecords.map (fun r => r.date))) : Nat)) }

/-- GET /api/employee/dashboard/stats response, hour fields in tenths. -/
structure EmployeeStats where
  todayHoursTenths : Int
  todaySessions : Nat
  weeklyTotalTenths : Int
  daysThisWeek : Nat
  currentStatus : String
  statusDetail : String
  productivityScore : Int
deriving Repr, DecidableEq

/-- GET /api/employee/dashboard/stats. -/
def employeeStats (st : Store) (now : Int) (me : String) : EmployeeStats :=
  let today := jsDay now
  let ws := weekStartDay today
  let todayRecords := st.records.filter
    (fun r => r.userId == me && (r.date == today && !r.isRunning))
  let weekRecords := st.records.filter
    (fun r => r.userId == me && (decide (ws ≤ r.date) && !r.isRunning))
  let activeTimer := st.records.find? (fun r => r.userId == me && r.isRunning)
  { todayHoursTenths := roundHalfUp (10 * sumDur todayRecords) 3600
    todaySessions := todayRecords.length
    weeklyTotalTenths := roundHalfUp (10 * sumDur weekRecords) 3600
    daysThisWeek := countDistinct (weekRecords.map (fun r => r.date))
    currentStatus :=
      match activeTimer with
      | some t => if t.isPaused then "Paused" else "Working"
      | none => "Not Working"
    statusDetail :=
      match activeTimer with
      | some t => "On: " ++ t.task
      | none => "Ready to start tracking"
    productivityScore := calculateProductivityScore weekRecords }

theorem filter_and_left {α : Type} (own p : α → Bool) (l : List α) :
    l.filter (fun a => own a && p a) = (l.filter own).filter p := by
  induction l with
  | nil => rfl
  | cons x xs ih =>
    cases hx : own x <;> cases hp : p x <;>
      simp [List.filter_cons, hx, hp, ih]

theorem find?_and_left {α : Type} (own p : α → Bool) (l : List α) :
    l.find? (fun a => own a && p a) = (l.filter own).find? p := by
  induction l with
  | nil => rfl
  | cons x xs ih =>
    cases hx : own x
    · rw [List.find?_cons_of_neg _ (by simp [hx]),
        List.filter_cons_of_neg (by simp [hx]), ih]
    · cases hp : p x
      · rw [List.find?_cons_of_neg _ (by simp [hx, hp]),
          List.filter_cons_of_pos (by simp [hx]),
          List.find?_cons_of_neg _ (by simp [hp]), ih]
      · rw [List.find?_cons_of_pos _ (by simp [hx, hp]),
          List.filter_cons_of_pos (by simp [hx]),
          List.find?_cons_of_pos _ (by simp [hp])]

theorem replaceFirst_filter_neg {α : Type} (own p : α → Bool) (f : α → α)
    (l : List α) (h1 : ∀ a, p a = true → own a = true)
    (h2 : ∀ a, p a = true → own (f a) = own a) :
    (replaceFirst p f l).filter (fun a => !own a) = l.filter (fun a => !own a) := by
  induction l with
  | nil => rfl
  | cons x xs ih =>
    by_cases hp : p x = true
    · have hx := h1 x hp
      simp [replaceFirst, hp, List.filter_cons, h2 x hp, hx]
    · have hp2 : p x = false := by revert hp; cases p x <;> simp
      cases hx : own x <;> simp [replaceFirst, hp2, List.filter_cons, hx, ih]

theorem replaceFirst_filter_pos {α : Type} (own p : α → Bool) (f : α → α)
    (l : List α) (h1 : ∀ a, p a = true → own a = true)
    (h2 : ∀ a, p a = true → own (f a) = own a) :
    (replaceFirst p f l).filter own = replaceFirst p f (l.filter own) := by
  induction l with
  | nil => rfl
  | cons x xs ih =>
    by_cases hp : p x = true
    · have hx := h1 x hp
      simp [replaceFirst, hp, List.filter_cons, h2 x hp, hx]
    · have hp2 : p x = false := by revert hp; cases p x <;> simp
      cases hx : own x <;> simp [replaceFirst, hp2, List.filter_cons, hx, ih]

theorem mem_eraseFirstP {α : Type} (p : α → Bool) (l : List α) :
    ∀ a ∈ eraseFirstP p l, a ∈ l := by
  induction l with
  | nil => intro a ha; cases ha
  | cons x xs ih =>
    intro a ha
    by_cases hp : p x = true
    · simp only [eraseFirstP, if_pos hp] at ha
      exact List.mem_cons_of_mem _ ha
    · simp only [eraseFirstP, if_neg hp] at ha
      rcases List.mem_cons.mp ha with h | h
      · exact h ▸ List.mem_cons_self _ _
      · exact List.mem_cons_of_mem _ (ih a h)

theorem mem_insertDesc (r a : TimeRecord) (l : List TimeRecord) :
    a ∈ insertDesc r l ↔ a = r ∨ a ∈ l := by
  induction l with
  | nil => simp [insertDesc]
  | cons x xs ih =>
    by_cases hc : r.startTime > x.startTime
    · simp [insertDesc, hc]
    · simp only [insertDesc, if_neg hc, List.mem_cons, ih]
      tauto

theorem length_insertDesc (r : TimeRecord) (l : List TimeRecord) :
    (insertDesc r l).length = l.length + 1 := by
  induction l with
  | nil => rfl
  | cons x xs ih =>
    by_cases hc : r.startTime > x.startTime <;>
      simp [insertDesc, hc, ih]

theorem pairwise_insertDesc (r : TimeRecord) (l : List TimeRecord)
    (h : l.Pairwise (fun a b => b.startTime ≤ a.startTime)) :
    (insertDesc r l).Pairwise (fun a b => b.startTime ≤ a.startTime) := by
  induction l with
  | nil => simp [insertDesc]
  | cons x xs ih =>
    rw [List.pairwise_cons] at h
    by_cases hc : r.startTime > x.startTime
    · rw [insertDesc, if_pos hc, List.pairwise_cons]
      constructor
      · intro b hb
        rcases List.mem_cons.mp hb with h1 | h2
        · exact h1 ▸ le_of_lt hc
        · exact le_trans (h.1 b h2) (le_of_lt hc)
      · rw [List.pairwise_cons]; exact h
    · rw [insertDesc, if_neg hc, List.pairwise_cons]
      constructor
      · intro b hb
        rcases (mem_insertDesc r b xs).mp hb with h1 | h2
        · exact h1 ▸ le_of_not_lt hc
        · exact h.1 b h2
      · exact ih h.2

theorem mem_sortByStartDesc (a : TimeRecord) (l : List TimeRecord) :
    a ∈ sortByStartDesc l ↔ a ∈ l := by
  induction l with
  | nil => simp [sortByStartDesc]
  | cons x xs ih =>
    simp only [sortByStartDesc, mem_insertDesc, ih, List.mem_cons]

theorem length_sortByStartDesc (l : List TimeRecord) :
    (sortByStartDesc l).length = l.length := by
  induction l with
  | nil => rfl
  | cons x xs ih => simp [sortByStartDesc, length_insertDesc, ih]

theorem pairwise_sortByStartDesc (l : List TimeRecord) :
    (sortByStartDesc l).Pairwise (fun a b => b.startTime ≤ a.startTime) := by
  induction l with
  | nil => simp [sortByStartDesc]
  | cons x xs ih => exact pairwise_insertDesc x (sortByStartDesc xs) ih

theorem intToString_digits (x : Int) (hx : 0 ≤ x) :
    ∀ c ∈ (intToString x).data, c.isDigit = true := by
  unfold intToString
  rw [if_neg (by omega)]
  exact natToString_digits x.toNat

theorem not_mem_intToString (c : Char) (hc : c.isDigit = false) (x : Int)
    (hx : 0 ≤ x) : c ∉ (intToString x).data := by
  intro hmem
  have := intToString_digits x hx c hmem
  rw [hc] at this
  cases this

/-- C8: for every non-negative integer s, formatDuration renders
hours-and-minutes when s is at least 3600 (floor division, seconds
dropped), minutes-and-seconds when 60 <= s < 3600, and bare seconds when
s < 60; the presence of the h and m unit letters in the output recovers
the bucket classification, and format(3661), format(125), format(45) are
the three sample strings. -/
theorem c8_duration_codec (s : Int) (hs : 0 ≤ s) :
    (3600 ≤ s → formatDuration s =
      intToString (s / 3600) ++ "h " ++ intToString (s % 3600 / 60) ++ "m") ∧
    (60 ≤ s → s < 3600 → formatDuration s =
      intToString (s / 60) ++ "m " ++ intToString (s % 60) ++ "s") ∧
    (s < 60 → formatDuration s = intToString s ++ "s") ∧
    ('h' ∈ (formatDuration s).data ↔ 3600 ≤ s) ∧
    ('m' ∈ (formatDuration s).data ↔ 60 ≤ s) ∧
    formatDuration 3661 = "1h 1m" ∧
    formatDuration 125 = "2m 5s" ∧
    formatDuration 45 = "45s" := by
  have e1 : Int.fdiv s 3600 = s / 3600 := Int.fdiv_eq_ediv s (by omega)
  have e2 : Int.tmod s 3600 = s % 3600 := Int.tmod_eq_emod hs (by omega)
  have e3 : Int.tmod s 60 = s % 60 := Int.tmod_eq_emod hs (by omega)
  have e4 : Int.fdiv (s % 3600) 60 = s % 3600 / 60 := Int.fdiv_eq_ediv _ (by omega)
  have hfd : formatDuration s =
      if 0 < s / 3600 then
        intToString (s / 3600) ++ "h " ++ intToString (s % 3600 / 60) ++ "m"
      else if 0 < s % 3600 / 60 then
        intToString (s % 3600 / 60) ++ "m " ++ intToString (s % 60) ++ "s"
      else intToString (s % 60) ++ "s" := by
    simp only [formatDuration, e1, e2, e3, e4]
  refine ⟨?_, ?_, ?_, ?_, ?_, by decide, by decide, by decide⟩
  · intro h
    rw [hfd, if_pos (by omega)]
  · intro h1 h2
    rw [hfd, if_neg (by omega), if_pos (by omega),
      show s % 3600 = s by omega]
  · intro h
    rw [hfd, if_neg (by omega), if_neg (by omega),
      show s % 60 = s by omega]
  · constructor
    · intro hmem
      by_contra hlt
      rw [hfd, if_neg (by omega)] at hmem
      by_cases hm : 0 < s % 3600 / 60
      · rw [if_pos hm] at hmem
        simp only [String.data_append, List.mem_append] at hmem
        rcases hmem with ((h1 | h2) | h3) | h4
        · exact not_mem_intToString 'h' (by decide) _ (by omega) h1
        · revert h2; decide
        · exact not_mem_intToString 'h' (by decide) _ (by omega) h3
        · revert h4; decide
      · rw [if_neg hm] at hmem
        simp only [String.data_append, List.mem_append] at hmem
        rcases hmem with h1 | h2
        · exact not_mem_intToString 'h' (by decide) _ (by omega) h1
        · revert h2; decide
    · intro h
      rw [hfd, if_pos (by omega)]
      simp only [String.data_append, List.mem_append]
      left; left; right
      decide
  · constructor
    · intro hmem
      by_contra hlt
      rw [hfd, if_neg (by omega), if_neg (by omega)] at hmem
      simp only [String.data_append, List.mem_append] at hmem
      rcases hmem with h1 | h2
      · exact not_mem_intToString 'm' (by decide) _ (by omega) h1
      · revert h2; decide
    · intro h
      by_cases hbig : 3600 ≤ s
      · rw [hfd, if_pos (by omega)]
        simp only [String.data_append, List.mem_append]
        right
        decide
      · rw [hfd, if_neg (by omega), if_pos (by omega)]
        simp only [String.data_append, List.mem_append]
        left; left; right
        decide

/-- Witness for c8_duration_codec at s = 3661. -/
theorem c8_duration_codec_witness :
    (0:Int) ≤ 3661 ∧ (3600:Int) ≤ 3661 ∧
    formatDuration 3661 =
      intToString ((3661:Int) / 3600) ++ "h " ++
        intToString ((3661:Int) % 3600 / 60) ++ "m" :=
  ⟨by decide, by decide, (c8_duration_codec 3661 (by decide)).1 (by decide)⟩

/-- Running state of the spec state machine on stored flags. -/
def runningState (r : TimeRecord) : Prop :=
  r.isRunning = true ∧ r.isPaused = false

/-- Paused state of the spec state machine on stored flags. -/
def pausedState (r : TimeRecord) : Prop :=
  r.isRunning = true ∧ r.isPaused = true

theorem runningState_or_pausedState (r : TimeRecord) :
    (runningState r ∨ pausedState r) ↔ r.isRunning = true := by
  cases hp : r.isPaused <;> simp [runningState, pausedState, hp]

/-- C1: start fails with the conflict error exactly when the caller
already owns a record in Running or Paused state (so records that are
stopped at creation, as manual entries are, never trigger it), and
otherwise succeeds, appending a record with startTime = now,
isRunning = true, isPaused = false, date = calendar-date(now), after
which the caller owns exactly one running record. -/
theorem c1_start_conflict_and_success (st : Store) (now : Int)
    (userId project task : String)
    (hu : (st.users.find? (fun u => u.id == userId)).isSome = true) :
    ((∃ r ∈ st.records, r.userId = userId ∧ (runningState r ∨ pausedState r)) ↔
      startTimer st now userId project task = .error .conflict) ∧
    ((∀ r ∈ st.records, r.userId = userId → r.isRunning = false) →
      ∃ st2 t, startTimer st now userId project task = .ok (st2, t) ∧
        t.startTime = now ∧ t.isRunning = true ∧ t.isPaused = false ∧
        t.date = jsDay now ∧ st2.records = st.records ++ [t] ∧
        (st2.records.filter (fun r => r.userId == userId && r.isRunning)).length = 1) := by
  constructor
  · constructor
    · rintro ⟨r, hr, hown, hstate⟩
      have hrun : r.isRunning = true := (runningState_or_pausedState r).mp hstate
      unfold startTimer
      cases hfind : st.records.find? (fun x => x.userId == userId && x.isRunning) with
      | some r0 => rfl
      | none =>
        exfalso
        have hnone := List.find?_eq_none.mp hfind r hr
        simp [hown, hrun] at hnone
    · intro hres
      unfold startTimer at hres
      cases hfind : st.records.find? (fun x => x.userId == userId && x.isRunning) with
      | some r0 =>
        have hmem := List.mem_of_find?_eq_some hfind
        have hpred := List.find?_some hfind
        simp only [Bool.and_eq_true, beq_iff_eq] at hpred
        exact ⟨r0, hmem, hpred.1, (runningState_or_pausedState r0).mpr hpred.2⟩
      | none =>
        simp only [hfind] at hres
        cases husr : st.users.find? (fun u => u.id == userId) with
        | none => simp only [husr] at hres; exact absurd hres (by simp)
        | some u => simp only [husr] at hres; exact absurd hres (by simp)
  · intro h2
    have hfind : st.records.find? (fun x => x.userId == userId && x.isRunning) = none := by
      apply List.find?_eq_none.mpr
      intro a ha
      simp only [Bool.and_eq_true, beq_iff_eq, not_and]
      intro hown
      rw [h2 a ha hown]
      simp
    cases husr : st.users.find? (fun u => u.id == userId) with
    | none => rw [husr] at hu; cases hu
    | some u =>
      refine ⟨{ st with records := st.records ++
          [{ id := "timer_" ++ intToString now
             userId := userId
             userName := u.firstName ++ " " ++ u.lastName
             userEmail := u.email
             project := project
             task := task
             startTime := now
             endTime := none
             duration := none
             durationSeconds := none
             isRunning := true
             isPaused := false
             isManual := false
             date := jsDay now }] }, _, ?_, rfl, rfl, rfl, rfl, rfl, ?_⟩
      · simp only [startTimer, hfind, husr]
      · rw [List.filter_append]
        have hl : st.records.filter (fun r => r.userId == userId && r.isRunning) = [] := by
          apply List.filter_eq_nil_iff.mpr
          intro a ha
          simp only [Bool.and_eq_true, beq_iff_eq, not_and]
          intro hown
          rw [h2 a ha hown]
          simp
        rw [hl]
        simp

/-- A seed employee for concrete scenarios. -/
def demoUser : User :=
  { id := "u1", firstName := "Ada", lastName := "L", email := "a@x"
    password := "pw", role := "employee", department := "G"
    position := "", employeeId := "EMP001" }

/-- A running record owned by the seed employee. -/
def demoRunRec : TimeRecord :=
  { id := "timer_0", userId := "u1", userName := "Ada L", userEmail := "a@x"
    project := "P", task := "T", startTime := 0, endTime := none
    duration := none, durationSeconds := none, isRunning := true
    isPaused := false, isManual := false, date := 0 }

/-- Store with one employee who has a running timer. -/
def demoRunningStore : Store := { users := [demoUser], records := [demoRunRec] }

/-- Witness for c1_start_conflict_and_success: with a running record in
the store, start is rejected with the conflict error. -/
theorem c1_start_conflict_and_success_witness :
    ((demoRunningStore.users.find? (fun u => u.id == "u1")).isSome = true) ∧
    startTimer demoRunningStore 5000 "u1" "P2" "T2" = .error .conflict :=
  ⟨by decide,
   (c1_start_conflict_and_success demoRunningStore 5000 "u1" "P2" "T2"
      (by decide)).1.mp
     ⟨demoRunRec, by decide, rfl, Or.inl ⟨rfl, rfl⟩⟩⟩

theorem mem_replaceFirst_of_pred_false {α : Type} (p : α → Bool) (f : α → α)
    (l : List α) : ∀ x ∈ l, p x = false → x ∈ replaceFirst p f l := by
  induction l with
  | nil => intro x hx; cases hx
  | cons y ys ih =>
    intro x hx hpx
    rcases List.mem_cons.mp hx with h | h
    · subst h
      rw [replaceFirst, if_neg (by rw [hpx]; exact Bool.false_ne_true)]
      exact List.mem_cons_self _ _
    · by_cases hpy : p y = true
      · rw [replaceFirst, if_pos hpy]
        exact List.mem_cons_of_mem _ h
      · rw [replaceFirst, if_neg hpy]
        exact List.mem_cons_of_mem _ (ih x h hpx)

/-- C2 (amended): stopping a record owned by the caller sets
isRunning = false and durationSeconds = floor((now - startTime)/1000)
with no clamping (the stored value is negative whenever now < startTime),
setting endTime, duration = format(durationSeconds) and durationSeconds
together in the same write; there is no running-state check, so stop may
hit an already-stopped record again and recompute these fields against
the new now, rather than setting them exactly once; isPaused and all
non-matching records are left unchanged. -/
theorem c2_stop_amended (st : Store) (now : Int) (recId userId : String)
    (r : TimeRecord)
    (hf : st.records.find? (fun x => x.userId == userId && x.id == recId) = some r) :
    ∃ st2 t, stopTimer st now recId userId = .ok (st2, t) ∧
      t.isRunning = false ∧
      t.endTime = some now ∧
      t.durationSeconds = some (Int.fdiv (now - r.startTime) 1000) ∧
      t.duration = some (formatDuration (Int.fdiv (now - r.startTime) 1000)) ∧
      t.isPaused = r.isPaused ∧
      st2.records = replaceFirst (fun x => x.userId == userId && x.id == recId)
        (fun _ => t) st.records ∧
      (∀ x ∈ st.records, (x.userId == userId && x.id == recId) = false →
        x ∈ st2.records) := by
  refine ⟨{ st with
            records := replaceFirst (fun x => x.userId == userId && x.id == recId)
                (fun _ =>
                  { r with
                    endTime := some now
                    duration := some (formatDuration (Int.fdiv (now - r.startTime) 1000))
                    durationSeconds := some (Int.fdiv (now - r.startTime) 1000)
                    isRunning := false }) st.records },
    { r with
      endTime := some now
      duration := some (formatDuration (Int.fdiv (now - r.startTime) 1000))
      durationSeconds := some (Int.fdiv (now - r.startTime) 1000)
      isRunning := false },
    ?_, rfl, rfl, rfl, rfl, rfl, rfl, ?_⟩
  · simp only [stopTimer, hf]
  · intro x hx hpx
    exact mem_replaceFirst_of_pred_false _ _ _ x hx hpx

/-- A stopped manual record whose startTime lies in the future of the
clock value used to stop it. -/
def futureManualRec : TimeRecord :=
  { id := "manual_1", userId := "u1", userName := "Ada L", userEmail := "a@x"
    project := "P", task := "T", startTime := 1000000, endTime := some 2000000
    duration := some "16m 40s", durationSeconds := some 1000
    isRunning := false, isPaused := false, isManual := true, date := 0 }

/-- Store with one employee owning the future-dated manual record. -/
def futureManualStore : Store :=
  { users := [demoUser], records := [futureManualRec] }

/-- Counterexample to C2 as stated: stopping an owned record at a clock
value earlier than its startTime stores durationSeconds = -1000, a
negative value, so the claimed clamping to a non-negative value does not
happen (this also re-stops an already-stopped record). -/
theorem c2_stop_counterexample :
    ((stopTimer futureManualStore 0 "manual_1" "u1").toOption.map
      (fun p => p.2.durationSeconds)) = some (some (-1000)) ∧
    ((-1000 : Int) < 0) := by
  constructor
  · rfl
  · decide

/-- Witness for c2_stop_amended on the one-running-record store. -/
theorem c2_stop_amended_witness :
    (demoRunningStore.records.find?
      (fun x => x.userId == "u1" && x.id == "timer_0") = some demoRunRec) ∧
    (∃ st2 t, stopTimer demoRunningStore 5000 "timer_0" "u1" = .ok (st2, t) ∧
      t.isRunning = false ∧
      t.endTime = some 5000 ∧
      t.durationSeconds = some (Int.fdiv (5000 - demoRunRec.startTime) 1000) ∧
      t.duration = some (formatDuration (Int.fdiv (5000 - demoRunRec.startTime) 1000)) ∧
      t.isPaused = demoRunRec.isPaused ∧
      st2.records = replaceFirst (fun x => x.userId == "u1" && x.id == "timer_0")
        (fun _ => t) demoRunningStore.records ∧
      (∀ x ∈ demoRunningStore.records,
        (x.userId == "u1" && x.id == "timer_0") = false → x ∈ st2.records)) :=
  ⟨by decide,
   c2_stop_amended demoRunningStore 5000 "timer_0" "u1" demoRunRec (by decide)⟩

theorem mem_replaceFirst_const {α : Type} (p : α → Bool) (t : α) (l : List α) :
    ∀ x ∈ replaceFirst p (fun _ => t) l, x ∈ l ∨ x = t := by
  induction l with
  | nil => intro x hx; cases hx
  | cons y ys ih =>
    intro x hx
    by_cases hpy : p y = true
    · rw [replaceFirst, if_pos hpy] at hx
      rcases List.mem_cons.mp hx with h | h
      · exact Or.inr h
      · exact Or.inl (List.mem_cons_of_mem _ h)
    · rw [replaceFirst, if_neg hpy] at hx
      rcases List.mem_cons.mp hx with h | h
      · exact Or.inl (h ▸ List.mem_cons_self _ _)
      · rcases ih x h with h2 | h2
        · exact Or.inl (List.mem_cons_of_mem _ h2)
        · exact Or.inr h2

/-- The data-model invariant claimed by the spec: a paused record is
always running. -/
def pausedImpRunning (st : Store) : Prop :=
  ∀ r ∈ st.records, r.isPaused = true → r.isRunning = true

/-- C3 (amended): the invariant isPaused = true implies isRunning = true
is preserved by start, manual insert, resume, user deletion, by pause
applied to a record that is running, and by stop applied to a record
that is not paused; it is not preserved in general, because stop leaves
isPaused untouched (so stopping a paused record breaks it) and pause
performs no running-state check (so pausing a stopped record breaks it). -/
theorem c3_invariant_amended (st : Store) (now : Int)
    (userId project task recId : String) (startT endT : Int)
    (hinv : pausedImpRunning st) :
    (∀ st2 t, startTimer st now userId project task = .ok (st2, t) →
      pausedImpRunning st2) ∧
    (∀ st2 t, manualInsert st now userId project task startT endT = .ok (st2, t) →
      pausedImpRunning st2) ∧
    (∀ st2 t, pauseTimer st recId userId "resume" = .ok (st2, t) →
      pausedImpRunning st2) ∧
    ((∀ r ∈ st.records, r.userId = userId → r.id = recId → r.isRunning = true) →
      ∀ st2 t, pauseTimer st recId userId "pause" = .ok (st2, t) →
        pausedImpRunning st2) ∧
    ((∀ r ∈ st.records, r.userId = userId → r.id = recId → r.isPaused = false) →
      ∀ st2 t, stopTimer st now recId userId = .ok (st2, t) →
        pausedImpRunning st2) ∧
    pausedImpRunning (deleteEmployee st userId) := by
  refine ⟨?_, ?_, ?_, ?_, ?_, ?_⟩
  · intro st2 t hok
    unfold startTimer at hok
    cases hfind : st.records.find? (fun r => r.userId == userId && r.isRunning) with
    | some r0 => rw [hfind] at hok; exact Except.noConfusion hok
    | none =>
      simp only [hfind] at hok
      cases husr : st.users.find? (fun u => u.id == userId) with
      | none => rw [husr] at hok; exact Except.noConfusion hok
      | some u =>
        simp only [husr, Except.ok.injEq, Prod.mk.injEq] at hok
        obtain ⟨h1, h2⟩ := hok
        subst h1
        intro r hr hp
        rcases List.mem_append.mp hr with h | h
        · exact hinv r h hp
        · rw [List.mem_singleton.mp h] at hp
          cases hp
  · intro st2 t hok
    unfold manualInsert at hok
    cases husr : st.users.find? (fun u => u.id == userId) with
    | none => rw [husr] at hok; exact Except.noConfusion hok
    | some u =>
      simp only [husr, Except.ok.injEq, Prod.mk.injEq] at hok
      obtain ⟨h1, h2⟩ := hok
      subst h1
      intro r hr hp
      rcases List.mem_append.mp hr with h | h
      · exact hinv r h hp
      · rw [List.mem_singleton.mp h] at hp
        cases hp
  · intro st2 t hok
    unfold pauseTimer at hok
    cases hfind : st.records.find? (fun r => r.userId == userId && r.id == recId) with
    | none => rw [hfind] at hok; exact Except.noConfusion hok
    | some timer =>
      simp only [hfind] at hok
      rw [if_neg (by decide), if_pos (by decide)] at hok
      simp only [Except.ok.injEq, Prod.mk.injEq] at hok
      obtain ⟨h1, h2⟩ := hok
      subst h1
      intro r hr hp
      rcases mem_replaceFirst_const _ _ _ r hr with h | h
      · exact hinv r h hp
      · rw [h] at hp
        cases hp
  · intro hrun st2 t hok
    unfold pauseTimer at hok
    cases hfind : st.records.find? (fun r => r.userId == userId && r.id == recId) with
    | none => rw [hfind] at hok; exact Except.noConfusion hok
    | some timer =>
      simp only [hfind] at hok
      rw [if_pos (by decide)] at hok
      simp only [Except.ok.injEq, Prod.mk.injEq] at hok
      obtain ⟨h1, h2⟩ := hok
      subst h1
      have hmem := List.mem_of_find?_eq_some hfind
      have hpred := List.find?_some hfind
      simp only [Bool.and_eq_true, beq_iff_eq] at hpred
      have htrun : timer.isRunning = true := hrun timer hmem hpred.1 hpred.2
      intro r hr hp
      rcases mem_replaceFirst_const _ _ _ r hr with h | h
      · exact hinv r h hp
      · rw [h]
        exact htrun
  · intro hnp st2 t hok
    unfold stopTimer at hok
    cases hfind : st.records.find? (fun r => r.userId == userId && r.id == recId) with
    | none => rw [hfind] at hok; exact Except.noConfusion hok
    | some timer =>
      simp only [hfind, Except.ok.injEq, Prod.mk.injEq] at hok
      obtain ⟨h1, h2⟩ := hok
      subst h1
      have hmem := List.mem_of_find?_eq_some hfind
      have hpred := List.find?_some hfind
      simp only [Bool.and_eq_true, beq_iff_eq] at hpred
      have htp : timer.isPaused = false := hnp timer hmem hpred.1 hpred.2
      intro r hr hp
      rcases mem_replaceFirst_const _ _ _ r hr with h | h
      · exact hinv r h hp
      · rw [h] at hp
        simp only at hp
        rw [htp] at hp
        cases hp
  · intro r hr hp
    exact hinv r (List.mem_of_mem_filter hr) hp

/-- The seed store before any records exist. -/
def demoFreshStore : Store := { users := [demoUser], records := [] }

/-- The running record after pause has been applied. -/
def demoPausedRec : TimeRecord := { demoRunRec with isPaused := true }

/-- Store state after start then pause. -/
def demoPausedStore : Store := { users := [demoUser], records := [demoPausedRec] }

/-- The record after start, pause, stop: stopped yet still flagged paused. -/
def demoStoppedPausedRec : TimeRecord :=
  { demoPausedRec with
    endTime := some 5000
    duration := some "5s"
    durationSeconds := some 5
    isRunning := false }

/-- Store state after start, pause, stop. -/
def demoStoppedPausedStore : Store :=
  { users := [demoUser], records := [demoStoppedPausedRec] }

/-- Counterexample to C3 as stated: the reachable sequence start, pause,
stop leaves a record with isPaused = true and isRunning = false in the
store, because stop never clears isPaused. -/
theorem c3_invariant_counterexample :
    startTimer demoFreshStore 0 "u1" "P" "T" = .ok (demoRunningStore, demoRunRec) ∧
    pauseTimer demoRunningStore "timer_0" "u1" "pause" =
      .ok (demoPausedStore, demoPausedRec) ∧
    stopTimer demoPausedStore 5000 "timer_0" "u1" =
      .ok (demoStoppedPausedStore, demoStoppedPausedRec) ∧
    demoStoppedPausedRec ∈ demoStoppedPausedStore.records ∧
    demoStoppedPausedRec.isPaused = true ∧
    demoStoppedPausedRec.isRunning = false := by
  refine ⟨rfl, rfl, rfl, ?_, rfl, rfl⟩
  decide

/-- Witness for c3_invariant_amended: starting on the fresh store, where
the invariant holds, yields a store still satisfying it. -/
theorem c3_invariant_amended_witness : pausedImpRunning demoRunningStore :=
  (c3_invariant_amended demoFreshStore 0 "u1" "P" "T" "timer_0" 0 0
    (by intro r hr; cases hr)).1 demoRunningStore demoRunRec rfl

/-- C4 (amended): manualInsert computes
durationSeconds = floor((endTime - startTime)/1000) and stores the record
unconditionally — a negative result is stored as is, no ValidationError
or any other validation exists in the handler; the created record has
isManual = true, isRunning = false from creation, both timestamps are the
caller-supplied ones, and date = calendar-date(startTime). -/
theorem c4_manual_amended (st : Store) (now : Int)
    (userId project task : String) (startT endT : Int) (u : User)
    (hu : st.users.find? (fun x => x.id == userId) = some u) :
    ∃ st2 t, manualInsert st now userId project task startT endT = .ok (st2, t) ∧
      t.durationSeconds = some (Int.fdiv (endT - startT) 1000) ∧
      t.isManual = true ∧
      t.isRunning = false ∧
      t.startTime = startT ∧
      t.endTime = some endT ∧
      t.date = jsDay startT ∧
      st2.records = st.records ++ [t] := by
  refine ⟨{ st with
            records := st.records ++
              [{ id := "manual_" ++ intToString now
                 userId := userId
                 userName := u.firstName ++ " " ++ u.lastName
                 userEmail := u.email
                 project := project
                 task := task
                 startTime := startT
                 endTime := some endT
                 duration := some (formatDuration (Int.fdiv (endT - startT) 1000))
                 durationSeconds := some (Int.fdiv (endT - startT) 1000)
                 isRunning := false
                 isPaused := false
                 isManual := true
                 date := jsDay startT }] },
    _, ?_, rfl, rfl, rfl, rfl, rfl, rfl, rfl⟩
  simp only [manualInsert, hu]

/-- Counterexample to C4 as stated: a manual entry whose endTime precedes
its startTime is accepted and stored with durationSeconds = -1000; no
ValidationError is reported. -/
theorem c4_manual_counterexample :
    ((manualInsert demoFreshStore 1 "u1" "P" "T" 1000000 0).toOption.map
      (fun p => (p.2.durationSeconds, p.1.records.length))) =
        some (some (-1000), 1) ∧
    ((-1000 : Int) < 0) := by
  constructor
  · rfl
  · decide

/-- Witness for c4_manual_amended with a well-formed one-minute entry. -/
theorem c4_manual_amended_witness :
    (demoFreshStore.users.find? (fun x => x.id == "u1") = some demoUser) ∧
    (∃ st2 t, manualInsert demoFreshStore 5 "u1" "P" "T" 0 60000 = .ok (st2, t) ∧
      t.durationSeconds = some (Int.fdiv (60000 - 0) 1000) ∧
      t.isManual = true ∧
      t.isRunning = false ∧
      t.startTime = 0 ∧
      t.endTime = some 60000 ∧
      t.date = jsDay 0 ∧
      st2.records = demoFreshStore.records ++ [t]) :=
  ⟨by decide,
   c4_manual_amended demoFreshStore 5 "u1" "P" "T" 0 60000 demoUser (by decide)⟩

theorem mem_eraseFirstP_unique_id (targetId : String) (l : List User)
    (huniq : l.Pairwise (fun a b => a.id ≠ b.id)) :
    ∀ u ∈ eraseFirstP (fun x => x.id == targetId) l, u.id ≠ targetId := by
  induction l with
  | nil => intro u hu; cases hu
  | cons x xs ih =>
    rw [List.pairwise_cons] at huniq
    by_cases hp : (x.id == targetId) = true
    · intro u hu
      rw [eraseFirstP, if_pos hp] at hu
      have hx : x.id = targetId := by simpa using hp
      intro hcontra
      exact (huniq.1 u hu) (by rw [hx, hcontra])
    · intro u hu
      rw [eraseFirstP, if_neg hp] at hu
      rcases List.mem_cons.mp hu with h | h
      · subst h; simpa using hp
      · exact ih huniq.2 u h

theorem mem_eraseFirstP_of_ne (targetId : String) (l : List User) :
    ∀ u ∈ l, u.id ≠ targetId → u ∈ eraseFirstP (fun x => x.id == targetId) l := by
  induction l with
  | nil => intro u hu; cases hu
  | cons x xs ih =>
    intro u hu hne
    by_cases hp : (x.id == targetId) = true
    · rw [eraseFirstP, if_pos hp]
      rcases List.mem_cons.mp hu with h | h
      · exfalso; subst h; exact hne (by simpa using hp)
      · exact h
    · rw [eraseFirstP, if_neg hp]
      rcases List.mem_cons.mp hu with h | h
      · exact h ▸ List.mem_cons_self _ _
      · exact List.mem_cons_of_mem _ (ih u h hne)

/-- C9: when user ids are unique (as the schema declares), deleting a
user removes exactly that user from the user collection and exactly the
time records whose userId matches: every surviving user has a different
id, every other user survives, no user is added, and a record survives
precisely when it was present and owned by someone else. -/
theorem c9_delete_cascade (st : Store) (targetId : String)
    (huniq : st.users.Pairwise (fun a b => a.id ≠ b.id)) :
    (∀ u ∈ (deleteEmployee st targetId).users, u.id ≠ targetId) ∧
    (∀ u ∈ st.users, u.id ≠ targetId → u ∈ (deleteEmployee st targetId).users) ∧
    (∀ u ∈ (deleteEmployee st targetId).users, u ∈ st.users) ∧
    (∀ r : TimeRecord, r ∈ (deleteEmployee st targetId).records ↔
      (r ∈ st.records ∧ r.userId ≠ targetId)) := by
  refine ⟨?_, ?_, ?_, ?_⟩
  · exact mem_eraseFirstP_unique_id targetId st.users huniq
  · exact mem_eraseFirstP_of_ne targetId st.users
  · exact mem_eraseFirstP (fun x => x.id == targetId) st.users
  · intro r
    constructor
    · intro hr
      have := List.mem_filter.mp hr
      refine ⟨this.1, ?_⟩
      have h2 := this.2
      simp only [Bool.not_eq_true', beq_eq_false_iff_ne, ne_eq] at h2
      exact h2
    · rintro ⟨h1, h2⟩
      apply List.mem_filter.mpr
      refine ⟨h1, ?_⟩
      simp only [Bool.not_eq_true', beq_eq_false_iff_ne, ne_eq]
      exact h2

/-- A second seed employee. -/
def demoUser2 : User :=
  { id := "u2", firstName := "Bo", lastName := "K", email := "b@x"
    password := "pw", role := "employee", department := "G"
    position := "", employeeId := "EMP002" }

/-- A running record owned by the second employee. -/
def otherUserRec : TimeRecord :=
  { demoRunRec with
    id := "timer_9"
    userId := "u2"
    userName := "Bo K"
    userEmail := "b@x" }

/-- Store holding both employees and one record each. -/
def twoUserStore : Store :=
  { users := [demoUser, demoUser2], records := [demoRunRec, otherUserRec] }

/-- Witness for c9_delete_cascade: deleting u1 keeps u2 and u2's record. -/
theorem c9_delete_cascade_witness :
    demoUser2 ∈ (deleteEmployee twoUserStore "u1").users ∧
    otherUserRec ∈ (deleteEmployee twoUserStore "u1").records :=
  ⟨(c9_delete_cascade twoUserStore "u1" (by decide)).2.1 demoUser2
      (by decide) (by decide),
   ((c9_delete_cascade twoUserStore "u1" (by decide)).2.2.2 otherUserRec).mpr
      ⟨by decide, by decide⟩⟩

/-- C10: every admin listing returns at most 100 records — exactly
min(100, number of matches) — ordered by startTime descending, for every
filter combination, while the employee listing uses the same descending
order but returns all of the caller's matches with no cap. -/
theorem c10_listing_cap_and_order (st : Store) (now : Int) (dr : String)
    (emp proj : Option String) (me : String) :
    (adminRecords st now dr emp proj).length ≤ 100 ∧
    (adminRecords st now dr emp proj).length =
      min 100 ((st.records.filter
        (fun r => !r.isRunning &&
          (dateRangeCond dr (jsDay now) r.date &&
            (empCond emp r && projCond proj r)))).length) ∧
    (adminRecords st now dr emp proj).Pairwise
      (fun a b => b.startTime ≤ a.startTime) ∧
    (employeeRecords st now me dr proj).Pairwise
      (fun a b => b.startTime ≤ a.startTime) ∧
    (employeeRecords st now me dr proj).length =
      (st.records.filter
        (fun r => r.userId == me &&
          (!r.isRunning &&
            (dateRangeCond dr (jsDay now) r.date && projCond proj r)))).length := by
  refine ⟨?_, ?_, ?_, ?_, ?_⟩
  · simp only [adminRecords]
    rw [List.length_take]
    exact min_le_left _ _
  · simp only [adminRecords]
    rw [List.length_take, length_sortByStartDesc]
  · simp only [adminRecords]
    exact List.Pairwise.sublist (List.take_sublist _ _) (pairwise_sortByStartDesc _)
  · simp only [employeeRecords]
    exact pairwise_sortByStartDesc _
  · simp only [employeeRecords]
    exact length_sortByStartDesc _

/-- The store with all running records removed. -/
def removeRunning (st : Store) : Store :=
  { st with records := st.records.filter (fun r => !r.isRunning) }

theorem filter_restrict_notRunning (p : TimeRecord → Bool)
    (hp : ∀ a, a.isRunning = true → p a = false) (l : List TimeRecord) :
    (l.filter (fun r => !r.isRunning)).filter p = l.filter p := by
  rw [List.filter_filter]
  apply List.filter_congr
  intro a _
  cases ha : a.isRunning
  · simp [ha]
  · simp [ha, hp a ha]

/-- C6: records with isRunning = true never appear in the admin or
employee historical listings, for every combination of date-range,
employee and project filters, and never contribute to any hour total of
the dashboards: deleting every running record from the store leaves all
hour-derived stats fields unchanged. -/
theorem c6_running_excluded (st : Store) (now : Int) (dr : String)
    (emp proj : Option String) (me : String) :
    (∀ r ∈ adminRecords st now dr emp proj, r.isRunning = false) ∧
    (∀ r ∈ employeeRecords st now me dr proj, r.isRunning = false) ∧
    (adminStats (removeRunning st) now).totalHoursTodayTenths =
      (adminStats st now).totalHoursTodayTenths ∧
    (adminStats (removeRunning st) now).weeklyTotalTenths =
      (adminStats st now).weeklyTotalTenths ∧
    (adminStats (removeRunning st) now).avgHoursPerDayTenths =
      (adminStats st now).avgHoursPerDayTenths ∧
    (employeeStats (removeRunning st) now me).todayHoursTenths =
      (employeeStats st now me).todayHoursTenths ∧
    (employeeStats (removeRunning st) now me).weeklyTotalTenths =
      (employeeStats st now me).weeklyTotalTenths ∧
    (employeeStats (removeRunning st) now me).productivityScore =
      (employeeStats st now me).productivityScore := by
  have hT := filter_restrict_notRunning
    (fun r => r.date == jsDay now && !r.isRunning)
    (by intro a ha; simp [ha]) st.records
  have hW := filter_restrict_notRunning
    (fun r => decide (weekStartDay (jsDay now) ≤ r.date) && !r.isRunning)
    (by intro a ha; simp [ha]) st.records
  have hTe := filter_restrict_notRunning
    (fun r => r.userId == me && (r.date == jsDay now && !r.isRunning))
    (by intro a ha; simp [ha]) st.records
  have hWe := filter_restrict_notRunning
    (fun r => r.userId == me &&
      (decide (weekStartDay (jsDay now) ≤ r.date) && !r.isRunning))
    (by intro a ha; simp [ha]) st.records
  refine ⟨?_, ?_, ?_, ?_, ?_, ?_, ?_, ?_⟩
  · intro r hr
    simp only [adminRecords] at hr
    have h1 := List.take_subset _ _ hr
    have h2 := (mem_sortByStartDesc _ _).mp h1
    have h3 := (List.mem_filter.mp h2).2
    simp only [Bool.and_eq_true, Bool.not_eq_true'] at h3
    exact h3.1
  · intro r hr
    simp only [employeeRecords] at hr
    have h2 := (mem_sortByStartDesc _ _).mp hr
    have h3 := (List.mem_filter.mp h2).2
    simp only [Bool.and_eq_true, Bool.not_eq_true'] at h3
    exact h3.2.1
  · simp only [adminStats, removeRunning]
    rw [hT]
  · simp only [adminStats, removeRunning]
    rw [hW]
  · simp only [adminStats, removeRunning]
    rw [hW]
  · simp only [employeeStats, removeRunning]
    rw [hTe]
  · simp only [employeeStats, removeRunning]
    rw [hWe]
  · simp only [employeeStats, removeRunning]
    rw [hWe]

/-- Witness for c6_running_excluded: the manual record surfaced by an
unfiltered admin listing is not running. -/
theorem c6_running_excluded_witness : futureManualRec.isRunning = false :=
  (c6_running_excluded futureManualStore 0 "" none none "u1").1
    futureManualRec (by decide)

/-- The sublist of records owned by a given user, in store order. -/
def ownRecords (st : Store) (me : String) : List TimeRecord :=
  st.records.filter (fun r => r.userId == me)

/-- C7: the employee-scoped operations — record listing, dashboard
stats, stop and pause/resume — read and touch only the caller's records:
on two stores whose caller-owned sublists agree, the listing (under every
filter combination), the stats, and the outcome of stop and pause (both
the returned record and the resulting caller-owned sublist) coincide;
every listed record is the caller's; stop and pause on an id owned only
by other users fail with the not-found error; and stop and pause leave
the records of every other user untouched. -/
theorem c7_employee_scoping (st1 st2 : Store) (now : Int)
    (me dr recId action : String) (proj : Option String)
    (hOwn : ownRecords st1 me = ownRecords st2 me) :
    employeeRecords st1 now me dr proj = employeeRecords st2 now me dr proj ∧
    (∀ r ∈ employeeRecords st1 now me dr proj, r.userId = me) ∧
    employeeStats st1 now me = employeeStats st2 now me ∧
    (stopTimer st1 now recId me).map (fun p => (p.2, ownRecords p.1 me)) =
      (stopTimer st2 now recId me).map (fun p => (p.2, ownRecords p.1 me)) ∧
    (pauseTimer st1 recId me action).map (fun p => (p.2, ownRecords p.1 me)) =
      (pauseTimer st2 recId me action).map (fun p => (p.2, ownRecords p.1 me)) ∧
    ((∀ r ∈ st1.records, r.id = recId → r.userId ≠ me) →
      stopTimer st1 now recId me = .error .notFound ∧
      pauseTimer st1 recId me action = .error .notFound) ∧
    (∀ st1b t, stopTimer st1 now recId me = .ok (st1b, t) →
      st1b.records.filter (fun r => !(r.userId == me)) =
        st1.records.filter (fun r => !(r.userId == me))) ∧
    (∀ st1b t, pauseTimer st1 recId me action = .ok (st1b, t) →
      st1b.records.filter (fun r => !(r.userId == me)) =
        st1.records.filter (fun r => !(r.userId == me))) := by
  have hOwnF : st1.records.filter (fun r => r.userId == me) =
      st2.records.filter (fun r => r.userId == me) := hOwn
  have hpown : ∀ a : TimeRecord,
      (a.userId == me && a.id == recId) = true → (a.userId == me) = true := by
    intro a ha
    simp only [Bool.and_eq_true] at ha
    exact ha.1
  have hF12 : st1.records.find? (fun r => r.userId == me && r.id == recId) =
      st2.records.find? (fun r => r.userId == me && r.id == recId) := by
    rw [find?_and_left, find?_and_left, hOwnF]
  refine ⟨?_, ?_, ?_, ?_, ?_, ?_, ?_, ?_⟩
  · simp only [employeeRecords]
    rw [filter_and_left (fun r => r.userId == me)
          (fun r => !r.isRunning &&
            (dateRangeCond dr (jsDay now) r.date && projCond proj r)) st1.records,
        filter_and_left (fun r => r.userId == me)
          (fun r => !r.isRunning &&
            (dateRangeCond dr (jsDay now) r.date && projCond proj r)) st2.records,
        hOwnF]
  · intro r hr
    simp only [employeeRecords] at hr
    have h2 := (mem_sortByStartDesc _ _).mp hr
    have h3 := (List.mem_filter.mp h2).2
    simp only [Bool.and_eq_true, beq_iff_eq] at h3
    exact h3.1
  · have hT12 : st1.records.filter
        (fun r => r.userId == me && (r.date == jsDay now && !r.isRunning)) =
        st2.records.filter
          (fun r => r.userId == me && (r.date == jsDay now && !r.isRunning)) := by
      rw [filter_and_left (fun r => r.userId == me)
            (fun r => r.date == jsDay now && !r.isRunning) st1.records,
          filter_and_left (fun r => r.userId == me)
            (fun r => r.date == jsDay now && !r.isRunning) st2.records,
          hOwnF]
    have hW12 : st1.records.filter
        (fun r => r.userId == me &&
          (decide (weekStartDay (jsDay now) ≤ r.date) && !r.isRunning)) =
        st2.records.filter
          (fun r => r.userId == me &&
            (decide (weekStartDay (jsDay now) ≤ r.date) && !r.isRunning)) := by
      rw [filter_and_left (fun r => r.userId == me)
            (fun r => decide (weekStartDay (jsDay now) ≤ r.date) && !r.isRunning)
            st1.records,
          filter_and_left (fun r => r.userId == me)
            (fun r => decide (weekStartDay (jsDay now) ≤ r.date) && !r.isRunning)
            st2.records,
          hOwnF]
    have hA12 : st1.records.find? (fun r => r.userId == me && r.isRunning) =
        st2.records.find? (fun r => r.userId == me && r.isRunning) := by
      rw [find?_and_left, find?_and_left, hOwnF]
    simp only [employeeStats]
    rw [hT12, hW12, hA12]
  · cases hf : st1.records.find? (fun r => r.userId == me && r.id == recId) with
    | none =>
      have hg : st2.records.find? (fun r => r.userId == me && r.id == recId) = none := by
        rw [← hF12, hf]
      simp only [stopTimer, hf, hg, Except.map]
    | some timer =>
      have hg : st2.records.find? (fun r => r.userId == me && r.id == recId) =
          some timer := by
        rw [← hF12, hf]
      have htown : (timer.userId == me) = true := by
        have hps := List.find?_some hf
        simp only [Bool.and_eq_true] at hps
        exact hps.1
      simp only [stopTimer, hf, hg, Except.map, ownRecords]
      rw [replaceFirst_filter_pos _ _ _ _ hpown
            (by intro a ha; exact htown.trans (hpown a ha).symm),
          replaceFirst_filter_pos _ _ _ _ hpown
            (by intro a ha; exact htown.trans (hpown a ha).symm),
          hOwnF]
  · cases hf : st1.records.find? (fun r => r.userId == me && r.id == recId) with
    | none =>
      have hg : st2.records.find? (fun r => r.userId == me && r.id == recId) = none := by
        rw [← hF12, hf]
      simp only [pauseTimer, hf, hg, Except.map]
    | some timer =>
      have hg : st2.records.find? (fun r => r.userId == me && r.id == recId) =
          some timer := by
        rw [← hF12, hf]
      have htown : (timer.userId == me) = true := by
        have hps := List.find?_some hf
        simp only [Bool.and_eq_true] at hps
        exact hps.1
      simp only [pauseTimer, hf, hg, Except.map, ownRecords]
      rw [replaceFirst_filter_pos _ _ _ _ hpown
            (by intro a ha
                cases hp1 : (action == "pause") <;> cases hp2 : (action == "resume") <;>
                  simp [hp1, hp2, htown, hpown a ha]),
          replaceFirst_filter_pos _ _ _ _ hpown
            (by intro a ha
                cases hp1 : (action == "pause") <;> cases hp2 : (action == "resume") <;>
                  simp [hp1, hp2, htown, hpown a ha]),
          hOwnF]
  · intro hno
    have hfnone : st1.records.find? (fun r => r.userId == me && r.id == recId) = none := by
      apply List.find?_eq_none.mpr
      intro a ha
      simp only [Bool.and_eq_true, beq_iff_eq, not_and]
      intro h1 h2
      exact absurd h1 (hno a ha h2)
    constructor
    · simp only [stopTimer, hfnone]
    · simp only [pauseTimer, hfnone]
  · intro st1b t hok
    cases hf : st1.records.find? (fun r => r.userId == me && r.id == recId) with
    | none =>
      rw [stopTimer.eq_def, hf] at hok
      exact Except.noConfusion hok
    | some timer =>
      have htown : (timer.userId == me) = true := by
        have hps := List.find?_some hf
        simp only [Bool.and_eq_true] at hps
        exact hps.1
      simp only [stopTimer, hf, Except.ok.injEq, Prod.mk.injEq] at hok
      obtain ⟨h1, h2⟩ := hok
      subst h1
      exact replaceFirst_filter_neg _ _ _ _ hpown
        (by intro a ha; exact htown.trans (hpown a ha).symm)
  · intro st1b t hok
    cases hf : st1.records.find? (fun r => r.userId == me && r.id == recId) with
    | none =>
      rw [pauseTimer.eq_def, hf] at hok
      exact Except.noConfusion hok
    | some timer =>
      have htown : (timer.userId == me) = true := by
        have hps := List.find?_some hf
        simp only [Bool.and_eq_true] at hps
        exact hps.1
      simp only [pauseTimer, hf, Except.ok.injEq, Prod.mk.injEq] at hok
      obtain ⟨h1, h2⟩ := hok
      subst h1
      exact replaceFirst_filter_neg _ _ _ _ hpown
        (by intro a ha
            cases hp1 : (action == "pause") <;> cases hp2 : (action == "resume") <;>
              simp [hp1, hp2, htown, hpown a ha])

/-- Witness for c7_employee_scoping: two stores differing only in the
second employee's records produce the same listing for the first. -/
theorem c7_employee_scoping_witness :
    employeeRecords twoUserStore 0 "u1" "" none =
      employeeRecords demoRunningStore 0 "u1" "" none :=
  (c7_employee_scoping twoUserStore demoRunningStore 0 "u1" "" "timer_0"
    "pause" none (by decide)).1

/-- Modelled from the spec words: the weekday index counted from Monday
(Monday = 0 .. Sunday = 6). -/
def mondayIndex (day : Int) : Int := (jsGetDay day + 6) % 7

/-- Modelled from the spec words: start-of-week = current date minus the
weekday index counted from Monday, on every day of the week. -/
def specWeekStartDay (today : Int) : Int := today - mondayIndex today

/-- The weekly record window a stats request at time now actually uses. -/
def weeklyWindow (records : List TimeRecord) (now : Int) : List TimeRecord :=
  records.filter
    (fun r => decide (weekStartDay (jsDay now) ≤ r.date) && !r.isRunning)

/-- A closed one-hour manual record on Monday, day 4. -/
def mwfRec1 : TimeRecord :=
  { demoRunRec with
    id := "m1"
    startTime := 4 * 86400000
    endTime := some (4 * 86400000 + 3600000)
    duration := some "1h 0m"
    durationSeconds := some 3600
    isRunning := false
    isManual := true
    date := 4 }

/-- A closed one-hour manual record on Wednesday, day 6. -/
def mwfRec2 : TimeRecord :=
  { mwfRec1 with
    id := "m2"
    startTime := 6 * 86400000
    endTime := some (6 * 86400000 + 3600000)
    date := 6 }

/-- A closed one-hour manual record on Friday, day 8. -/
def mwfRec3 : TimeRecord :=
  { mwfRec1 with
    id := "m3"
    startTime := 8 * 86400000
    endTime := some (8 * 86400000 + 3600000)
    date := 8 }

/-- Store with the three Monday/Wednesday/Friday one-hour records. -/
def mwfStore : Store :=
  { users := [demoUser], records := [mwfRec1, mwfRec2, mwfRec3] }

/-- The Friday-noon clock value of that week, day 8. -/
def mwfNow : Int := 8 * 86400000 + 43200000

/-- C5 (amended): for both dashboards the weekly window consists of
records with date at least the code's start-of-week, which is the
current date minus the Sunday-based getDay index plus one: on Monday
through Saturday this equals the spec's Monday-based start-of-week, but
on a Sunday it is the following day, so that Sunday's own and
earlier-week records fall outside the window that day; weeklyTotal is
the window's durationSeconds sum over 3600 in rounded tenths,
daysThisWeek counts the window's distinct dates, avgHoursPerDay divides
the unrounded weekly sum by max(1, daysThisWeek); the three one-hour
Mon/Wed/Fri records evaluated on that Friday give weeklyTotal 3.0,
daysThisWeek 3, avgHoursPerDay 1.0 on both dashboards. -/
theorem c5_weekly_stats_amended (st : Store) (now : Int) (me : String) (d : Int) :
    (jsGetDay d = 0 → weekStartDay d = d + 1) ∧
    (jsGetDay d ≠ 0 → weekStartDay d = specWeekStartDay d) ∧
    (adminStats st now).weeklyTotalTenths =
      roundHalfUp (10 * sumDur (weeklyWindow st.records now)) 3600 ∧
    (adminStats st now).daysThisWeek =
      countDistinct ((weeklyWindow st.records now).map (fun r => r.date)) ∧
    (adminStats st now).avgHoursPerDayTenths =
      roundHalfUp (10 * sumDur (weeklyWindow st.records now))
        (3600 * (max 1 (countDistinct
          ((weeklyWindow st.records now).map (fun r => r.date))) : Nat)) ∧
    (employeeStats st now me).weeklyTotalTenths =
      roundHalfUp (10 * sumDur (weeklyWindow (ownRecords st me) now)) 3600 ∧
    (employeeStats st now me).daysThisWeek =
      countDistinct ((weeklyWindow (ownRecords st me) now).map (fun r => r.date)) ∧
    (adminStats mwfStore mwfNow).weeklyTotalTenths = 30 ∧
    (adminStats mwfStore mwfNow).daysThisWeek = 3 ∧
    (adminStats mwfStore mwfNow).avgHoursPerDayTenths = 10 ∧
    (employeeStats mwfStore mwfNow "u1").weeklyTotalTenths = 30 ∧
    (employeeStats mwfStore mwfNow "u1").daysThisWeek = 3 := by
  have hsplit : st.records.filter
      (fun r => r.userId == me &&
        (decide (weekStartDay (jsDay now) ≤ r.date) && !r.isRunning)) =
      (st.records.filter (fun r => r.userId == me)).filter
        (fun r => decide (weekStartDay (jsDay now) ≤ r.date) && !r.isRunning) :=
    filter_and_left (fun r => r.userId == me)
      (fun r => decide (weekStartDay (jsDay now) ≤ r.date) && !r.isRunning)
      st.records
  refine ⟨?_, ?_, rfl, rfl, rfl, ?_, ?_, by decide, by decide, by decide,
    by decide, by decide⟩
  · intro h
    unfold weekStartDay at *
    unfold jsGetDay at *
    omega
  · intro h
    unfold weekStartDay specWeekStartDay mondayIndex at *
    unfold jsGetDay at *
    omega
  · simp only [employeeStats, weeklyWindow, ownRecords]
    rw [hsplit]
  · simp only [employeeStats, weeklyWindow, ownRecords]
    rw [hsplit]

/-- A closed one-hour manual record dated Sunday, day 10. -/
def sundayRec : TimeRecord :=
  { mwfRec1 with
    id := "m4"
    startTime := 10 * 86400000
    endTime := some (10 * 86400000 + 3600000)
    date := 10 }

/-- Store holding only the Sunday record. -/
def sundayStore : Store := { users := [demoUser], records := [sundayRec] }

/-- Counterexample to C5 as stated: day 10 is a Sunday, the spec's
Monday-based start-of-week is day 4, yet the code computes day 11, so
the one-hour record dated that very Sunday (well inside the claimed
window, since 4 is at most 10) contributes nothing: weeklyTotal is 0.0
and daysThisWeek is 0 on both dashboards. -/
theorem c5_weekly_counterexample :
    jsGetDay 10 = 0 ∧
    weekStartDay 10 = 11 ∧
    specWeekStartDay 10 = 4 ∧
    ((4 : Int) ≤ 10) ∧
    (adminStats sundayStore (10 * 86400000)).weeklyTotalTenths = 0 ∧
    (adminStats sundayStore (10 * 86400000)).daysThisWeek = 0 ∧
    (employeeStats sundayStore (10 * 86400000) "u1").weeklyTotalTenths = 0 := by
  decide

/-- Witness for c5_weekly_stats_amended: on Monday, day 4, the code's
start-of-week agrees with the spec's Monday-based one. -/
theorem c5_weekly_stats_amended_witness :
    jsGetDay 4 ≠ 0 ∧ weekStartDay 4 = specWeekStartDay 4 :=
  ⟨by decide, (c5_weekly_stats_amended demoFreshStore 0 "u1" 4).2.1 (by decide)⟩
